import Mathlib

/-!
Verification of the audio-player playback engine against its specification.

The Rust sources under audio-player/src are shallowly embedded:
pure functions become Lean functions, the stateful executor loop becomes an
explicit step function on a state record, fallible code returns Except.

Modelling conventions:
* f64 sample values are modelled as rationals (every finite f64 value is a
  rational); the verified operations only move samples around, never compute
  with them.
* std::time::Duration is modelled as a Nat of nanoseconds.
* External collaborators (the symphonia demuxer/decoder, the rubato engine,
  the OS audio device) are modelled at their interfaces: packets carry their
  decoded planar samples as oracle payload, the rubato kernel invocation is an
  oracle argument, and the audio output is a pure sink recording the buffers
  written to it.
-/

namespace AudioPlayer

/-- Decidable equality for Except results, so witnesses can be checked by
evaluation. -/
instance {ε α : Type} [DecidableEq ε] [DecidableEq α] : DecidableEq (Except ε α) := fun x y =>
  match x, y with
  | .ok a, .ok b =>
    if h : a = b then isTrue (congrArg Except.ok h)
    else isFalse (fun hc => h (Except.ok.inj hc))
  | .error a, .error b =>
    if h : a = b then isTrue (congrArg Except.error h)
    else isFalse (fun hc => h (Except.error.inj hc))
  | .ok _, .error _ => isFalse (fun hc => Except.noConfusion hc)
  | .error _, .ok _ => isFalse (fun hc => Except.noConfusion hc)

/-- Sample values of the planar buffers (f64 in the source). -/
abbrev Sample := Rat

/-- Durations, in nanoseconds (std::time::Duration in the source). -/
abbrev Dur := Nat

/-! ## buffer.rs -/

/-- Planar sample container, from SampleBuf in buffer.rs (buffer: Vec of
per-channel Vec of f64). -/
structure SampleBuf where
  buffer : List (List Sample)
deriving DecidableEq

/-- Vec::resize(n, v): truncate to n elements, or pad with copies of v. -/
def vecResize (l : List Sample) (n : Nat) (v : Sample) : List Sample :=
  if n ≤ l.length then l.take n else l ++ List.replicate (n - l.length) v

/-- SampleBuf::resize from buffer.rs: self.buffer.truncate(channels) followed by
Vec::resize(samples_per_channel, 0.0) on each remaining channel. -/
def SampleBuf.resize (b : SampleBuf) (channels samples_per_channel : Nat) : SampleBuf :=
  ⟨(b.buffer.take channels).map (fun c => vecResize c samples_per_channel 0)⟩

/-- SampleBuf::channels. -/
def SampleBuf.channels (b : SampleBuf) : Nat := b.buffer.length

/-- SampleBuf::frames: length of channel 0, or 0 when there are no channels. -/
def SampleBuf.frames (b : SampleBuf) : Nat :=
  match b.buffer.head? with
  | some c => c.length
  | none => 0

/-- SampleBuf::interleaved: (0..frames).flat_map(|f| buffer.iter().map(|b| b[f])).
The source indexes b[f], which panics out of range; modelled total with getD,
and used only under the planar invariant where f is always in range. -/
def SampleBuf.interleaved (b : SampleBuf) : List Sample :=
  (List.range b.frames).flatMap (fun f => b.buffer.map (fun c => c.getD f 0))

/-! ## decoder.rs : data model -/

/-- symphonia TimeBase (numerator / denominator of one timestamp tick in
seconds). -/
structure TimeBase where
  numer : Nat
  denom : Nat
deriving DecidableEq

/-- TimeBase::calc_time(ts) followed by the conversion into std Duration:
ts * numer / denom seconds, at nanosecond granularity. -/
def TimeBase.calcTime (tb : TimeBase) (ts : Nat) : Dur :=
  ts * tb.numer * 1000000000 / tb.denom

/-- Conversion of a seek target Duration into a track timestamp, as performed
inside FormatReader::seek for SeekTo::Time (inverse of calcTime). -/
def timeToTs (tb : Option TimeBase) (t : Dur) : Nat :=
  match tb with
  | some b => t * b.denom / (b.numer * 1000000000)
  | none => 0

/-- symphonia CodecParameters, restricted to the fields the player reads. -/
structure CodecParameters where
  sample_rate : Option Nat
  channels : Option Nat
  max_frames_per_packet : Option Nat
  /-- codec type tag (CodecType in symphonia) -/
  codec : Nat
  time_base : Option TimeBase
  n_frames : Option Nat
deriving DecidableEq

/-- symphonia CODEC_TYPE_MP3 tag value (0x1001). -/
def CODEC_TYPE_MP3 : Nat := 4097

/-- A demuxer packet; data is the planar f64 sample payload the decoder
produces for it (decode oracle). -/
structure Packet where
  track_id : Nat
  ts : Nat
  dur : Nat
  data : List (List Sample)
deriving DecidableEq

/-- The demuxer (FormatReader): the packet stream of the container plus the
cursor of the next packet to deliver. -/
structure FormatReader where
  packets : List Packet
  pos : Nat
  default_track_id : Option Nat
  /-- time base of the default track, used to convert SeekTo::Time targets -/
  tb : Option TimeBase
deriving DecidableEq

inductive SeekMode where
  | coarse
  | accurate
deriving DecidableEq

/-- Index of the nearest packet with ts at or before the target timestamp
(accurate seek of the demuxer); 0 when every packet starts later. -/
def seekIndex (packets : List Packet) (tsTarget : Nat) : Nat :=
  match (packets.enum.filter (fun ip => decide (ip.2.ts ≤ tsTarget))).getLast? with
  | some ip => ip.1
  | none => 0

/-- FormatReader::seek(mode, SeekTo::Time): reposition the packet cursor at the
nearest packet starting at or before the target. -/
def FormatReader.seekTo (r : FormatReader) (_mode : SeekMode) (t : Dur) : FormatReader :=
  { r with pos := seekIndex r.packets (timeToTs r.tb t) }

/-- Error kinds of decoder.rs (DecoderError); the symphonia error wrapped by
DecoderError::Symphonia is split into the kinds the player distinguishes. -/
inductive DecoderError where
  | trackUnavailable
  | ioError
  | endOfStream
  | decodeError
  | progressUnavailable
deriving DecidableEq

/-- DecodedTrack from decoder.rs: demuxer, decoder parameters, current
timestamp and the one-packet look-ahead cache (field next_packet). -/
structure DecodedTrack where
  reader : FormatReader
  codec_params : CodecParameters
  progress : Nat
  next_packet : Option Packet
deriving DecidableEq

/-- Loop body of the private DecodedTrack::next_packet: pull packets off the
stream until one belongs to the default track; n counts the packets consumed.
The stream end surfaces as EndOfStream, a missing default track as
TrackUnavailable (checked only after a packet was pulled, as in the source). -/
def scanPackets (tid : Option Nat) : List Packet → Except DecoderError (Packet × Nat)
  | [] => .error .endOfStream
  | p :: rest =>
    match tid with
    | none => .error .trackUnavailable
    | some i =>
      if p.track_id = i then .ok (p, 1)
      else
        match scanPackets tid rest with
        | .ok (q, n) => .ok (q, n + 1)
        | .error e => .error e

/-- DecodedTrack::next_packet: scan from the cursor, advance it past the
consumed packets and record the packet timestamp as progress. -/
def DecodedTrack.nextPacketFn (t : DecodedTrack) : Except DecoderError (Packet × DecodedTrack) :=
  match scanPackets t.reader.default_track_id (t.reader.packets.drop t.reader.pos) with
  | .error e => .error e
  | .ok (p, n) =>
    .ok (p, { t with reader := { t.reader with pos := t.reader.pos + n }, progress := p.ts })

/-- The decoder run on a packet (oracle: the packet carries its decoded planar
samples). -/
def decodePacket (p : Packet) : SampleBuf := ⟨p.data⟩

/-- DecodedTrack::seek: seek the demuxer in accurate mode, reset the decoder
(the modelled decoder carries no hidden state), then pre-fetch one packet into
the next_packet cache. -/
def DecodedTrack.seek (t : DecodedTrack) (target : Dur) : Except DecoderError DecodedTrack :=
  let r := t.reader.seekTo SeekMode.accurate target
  match DecodedTrack.nextPacketFn { t with reader := r } with
  | .error e => .error e
  | .ok (p, t1) => .ok { t1 with next_packet := some p }

/-- DecodedTrack::next: take the cached packet if present, else pull the next
one; record its timestamp as progress and return its decoded samples.
(The metadata drain of the source only logs and is omitted.) -/
def DecodedTrack.next (t : DecodedTrack) : Except DecoderError (SampleBuf × DecodedTrack) :=
  match t.next_packet with
  | some p => .ok (decodePacket p, { t with next_packet := none, progress := p.ts })
  | none =>
    match t.nextPacketFn with
    | .error e => .error e
    | .ok (p, t1) => .ok (decodePacket p, { t1 with next_packet := none, progress := p.ts })

/-- DecodedTrack::progress: convert the current timestamp through the codec
time base; fails with ProgressUnavailable when the time base is absent. -/
def DecodedTrack.progressTime (t : DecodedTrack) : Except DecoderError Dur :=
  match t.codec_params.time_base with
  | none => .error .progressUnavailable
  | some tb => .ok (tb.calcTime t.progress)

/-! ## resampler.rs -/

/-- Error kinds of resampler.rs (ResamplerError); the two rubato variants keep
only their kind, the wrapped rubato payloads being external. -/
inductive ResamplerError where
  | invalidCodecParameters
  | rubatoConstruction
  | rubatoResample
deriving DecidableEq

/-- State of SymphoniaResamplerBuffered plus the inner SymphoniaResampler
fields the buffering logic touches: the fixed chunk width (the capacity of
each input_buffer slot), the per-channel partially filled input slot, the
queue of decoded packets awaiting consumption (planar) and the read position
inside the front packet. -/
structure ResamplerState where
  chunk : Nat
  num_channels : Nat
  input_buffer : List (List Sample)
  queue : List (List (List Sample))
  buffer_position : Nat
deriving DecidableEq

/-- SymphoniaResamplerBuffered::DEFAULT_CHUNK_SIZE. -/
def DEFAULT_CHUNK_SIZE : Nat := 1024

/-- SymphoniaResamplerBuffered::new: require a sample rate, choose the chunk
size (max_frames_per_packet, else 1152 for MP3, else the 1024 default),
require channels, then build the inner resampler with empty input slots of
capacity chunk_size. The rubato SincFixedIn construction is external kernel
code and is modelled as succeeding. -/
def SymphoniaResamplerBuffered.new (cp : CodecParameters) (_output_sample_rate : Nat) :
    Except ResamplerError ResamplerState :=
  match cp.sample_rate with
  | none => .error .invalidCodecParameters
  | some _ =>
    let chunk_size :=
      match cp.max_frames_per_packet with
      | some k => k
      | none => if cp.codec = CODEC_TYPE_MP3 then 1152 else DEFAULT_CHUNK_SIZE
    match cp.channels with
    | none => .error .invalidCodecParameters
    | some ch =>
      .ok { chunk := chunk_size, num_channels := ch,
            input_buffer := List.replicate ch [],
            queue := [], buffer_position := 0 }

/-- SymphoniaResamplerBuffered::resample (push): convert the packet to f64 and
append it to the queue; always succeeds at this point in the source. -/
def ResamplerState.resample (rs : ResamplerState) (buffer : SampleBuf) : ResamplerState :=
  { rs with queue := rs.queue ++ [buffer.buffer] }

/-- Result of fill_f64_buffer_21: the updated slots and the new read position,
or the panic the function raises when a whole channel pass pushes nothing. -/
inductive Fill21Out where
  | panicked
  | ok (slots : List (List Sample)) (next : Nat)
deriving DecidableEq

/-- Per-channel pass of fill_f64_buffer_21: for channel c copy up to
(capacity - len) samples starting at start from the packet channel into the
slot; after each channel the source panics when the running pushed count is
still zero. -/
def fill21Go (chunk : Nat) (buffer : List (List Sample)) (start : Nat) :
    List (List Sample) → Nat → Nat → Fill21Out
  | [], _, pushed => .ok [] pushed
  | slot :: rest, c, pushed =>
    let to_take := chunk - slot.length
    let taken := ((buffer.getD c []).drop start).take to_take
    let pushed1 := pushed + taken.length
    if pushed1 = 0 then .panicked
    else
      match fill21Go chunk buffer start rest (c + 1) pushed1 with
      | .panicked => .panicked
      | .ok slots p2 => .ok ((slot ++ taken) :: slots) p2

/-- fill_f64_buffer_21 from resampler.rs: fill the input slots from the packet
starting at start, and return pushed / channel_count + start as the new read
position. -/
def fill_f64_buffer_21 (chunk : Nat) (buffer : List (List Sample)) (start : Nat)
    (f64_buffer : List (List Sample)) : Fill21Out :=
  match fill21Go chunk buffer start f64_buffer 0 0 with
  | .panicked => .panicked
  | .ok slots pushed => .ok slots (pushed / f64_buffer.length + start)

/-- Outcome of one rubato engine invocation inside resample_inner
(SincFixedIn::process_into_buffer is external kernel code, supplied as an
oracle: either the produced planar output chunk or a kernel error). -/
abbrev EngineResult := Except ResamplerError (List (List Sample))

/-- frames() of a planar packet buffer: length of channel 0. -/
def bufferFrames (buf : List (List Sample)) : Nat :=
  match buf.head? with
  | some c => c.length
  | none => 0

/-- Outcome of SymphoniaResamplerBuffered::resample_next. -/
inductive ResampleNextOut where
  | panicked
  | engineError (e : ResamplerError)
  | done (out : Option (List (List Sample))) (rs : ResamplerState)
  | fuelOut
deriving DecidableEq

/-- SymphoniaResamplerBuffered::resample_next: while the input slot is not
full, pull from the queued packets through fill_f64_buffer_21 (returning none
when the queue runs dry, popping a packet once fully consumed); when the slot
fills, run the engine once and clear all input slots. The while loop is
modelled with fuel; queue.length + 2 suffices for any run. -/
def resampleNext (eng : EngineResult) : Nat → ResamplerState → ResampleNextOut
  | 0, _ => .fuelOut
  | fuel + 1, rs =>
    if rs.input_buffer.length = 0 then .panicked
    else if (rs.input_buffer.headD []).length < rs.chunk then
      match rs.queue with
      | [] => .done none rs
      | buf :: restQ =>
        match fill_f64_buffer_21 rs.chunk buf rs.buffer_position rs.input_buffer with
        | .panicked => .panicked
        | .ok slots next =>
          if bufferFrames buf ≤ next then
            resampleNext eng fuel
              { rs with input_buffer := slots, queue := restQ, buffer_position := 0 }
          else
            resampleNext eng fuel { rs with input_buffer := slots, buffer_position := next }
    else
      match eng with
      | .error e => .engineError e
      | .ok out => .done (some out) { rs with input_buffer := rs.input_buffer.map (fun _ => []) }

/-! ## player.rs : controller -/

/-- AudioPlayerControllerState of player.rs: the mutex-protected transport
record. -/
structure AudioPlayerControllerState where
  running : Bool
  playing : Bool
  position : Option Dur
  seek_position : Option Dur
deriving DecidableEq

/-- AudioPlayerControllerState::new. -/
def AudioPlayerControllerState.new : AudioPlayerControllerState :=
  { running := false, playing := false, position := none, seek_position := none }

/-- Body of AudioPlayerController::seek up to the wait loop: return with the
state untouched when not running, else set the one-shot seek request. -/
def controllerSeekBody (s : AudioPlayerControllerState) (d : Dur) : AudioPlayerControllerState :=
  if !s.running then s
  else { s with seek_position := some d }

/-- Guard of the wait loop in AudioPlayerController::seek: the caller keeps
waiting on controller_condvar exactly while this is true (re-checked at every
wake-up). -/
def controllerSeekWaitGuard (s : AudioPlayerControllerState) : Bool :=
  s.playing && s.seek_position.isSome

/-! ## player.rs : executor inner loop -/

/-- Errors the worker closure of AudioPlayerExecutor::new can return (and
which run().unwrap() then turns into a thread panic). -/
inductive ExecError where
  | dec (e : DecoderError)
  | res (e : ResamplerError)
deriving DecidableEq

/-- State owned or shared by the executor during one track: the shared
transport record, the current track, the optional buffered resampler, the
buffers handed to output.write (the audio output modelled as a pure sink) and
the number of controller_condvar.notify_all calls performed. -/
structure ExecState where
  ctrl : AudioPlayerControllerState
  track : DecodedTrack
  resampler : Option ResamplerState
  written : List (List (List Sample))
  ack_notifies : Nat
deriving DecidableEq

/-- Outcome of the mutex-holding head of one inner-loop iteration. -/
inductive ControlPhaseOut where
  | proceed (s : ExecState)
  | waitPaused (s : ExecState)
  | fatal (e : ExecError) (s : ExecState)
deriving DecidableEq

/-- The mutex-holding head of the executor inner loop: service a pending seek
(propagating its error), publish the position from track.progress (propagating
its error), then either proceed to decoding or block on executor_condvar while
not playing (output.pause / output.play are device-side only and modelled as
infallible). -/
def serviceControls (s : ExecState) : ControlPhaseOut :=
  let afterSeek : Except (ExecError × ExecState) ExecState :=
    match s.ctrl.seek_position with
    | some d =>
      match s.track.seek d with
      | .error e => .error (.dec e, s)
      | .ok t1 =>
        .ok { s with track := t1,
                     ctrl := { s.ctrl with seek_position := none },
                     ack_notifies := s.ack_notifies + 1 }
    | none => .ok s
  match afterSeek with
  | .error (e, s1) => .fatal e s1
  | .ok s1 =>
    match s1.track.progressTime with
    | .error e => .fatal (.dec e) s1
    | .ok p =>
      let s2 := { s1 with ctrl := { s1.ctrl with position := some p } }
      if s2.ctrl.playing then .proceed s2 else .waitPaused s2

/-- Outcome of draining the resample iterator (while let Some(sample) =
samples.next() { output.write(sample?) }): the final resampler state and the
output buffers produced, or the failure that interrupted the loop (an engine
error carries the buffers already written before it). -/
inductive PopLoopOut where
  | ok (rs : ResamplerState) (outs : List (List (List Sample)))
  | engineError (e : ResamplerError) (outs : List (List (List Sample)))
  | panicked
  | fuelOut
deriving DecidableEq

/-- Drain the resample iterator: call resample_next until it yields none,
collecting each produced chunk in order. -/
def popLoop (eng : EngineResult) : Nat → ResamplerState → PopLoopOut
  | 0, _ => .fuelOut
  | fuel + 1, rs =>
    match resampleNext eng (fuel + 1) rs with
    | .panicked => .panicked
    | .fuelOut => .fuelOut
    | .engineError e => .engineError e []
    | .done none rs1 => .ok rs1 []
    | .done (some out) rs1 =>
      match popLoop eng fuel rs1 with
      | .ok rs2 outs => .ok rs2 (out :: outs)
      | .engineError e outs => .engineError e (out :: outs)
      | .panicked => .panicked
      | .fuelOut => .fuelOut

/-- Outcome of one iteration of the executor inner loop. -/
inductive ExecStepOut where
  /-- the iteration completed; the loop runs again on this state -/
  | continueLoop (s : ExecState)
  /-- blocked on executor_condvar inside the mutex section (paused) -/
  | waitPaused (s : ExecState)
  /-- inner-loop break on a track.next error: end of the current track -/
  | trackEnd (s : ExecState)
  /-- an Err left the run closure: the whole executor terminates -/
  | fatal (e : ExecError) (s : ExecState)
  /-- a Rust panic (assert / panic macro) killed the executor thread -/
  | panicked
  | fuelOut
deriving DecidableEq

/-- One iteration of the executor inner loop of AudioPlayerExecutor::new (the
not-dropped case): run the mutex section, then track.next (any error breaks
the loop as end of track), then either write the decoded buffer directly or
push it through the buffered resampler and write every chunk it yields. -/
def execStep (eng : EngineResult) (fuel : Nat) (s : ExecState) : ExecStepOut :=
  match serviceControls s with
  | .fatal e s1 => .fatal e s1
  | .waitPaused s1 => .waitPaused s1
  | .proceed s1 =>
    match s1.track.next with
    | .error _ => .trackEnd s1
    | .ok (buf, t1) =>
      let s2 := { s1 with track := t1 }
      match s2.resampler with
      | none => .continueLoop { s2 with written := s2.written ++ [buf.buffer] }
      | some rs =>
        match popLoop eng fuel (rs.resample buf) with
        | .panicked => .panicked
        | .fuelOut => .fuelOut
        | .engineError e outs => .fatal (.res e) { s2 with written := s2.written ++ outs }
        | .ok rs2 outs =>
          .continueLoop { s2 with resampler := some rs2, written := s2.written ++ outs }

/-- Per-track teardown after the inner loop ends: running is cleared and any
concurrently waiting seeker is unblocked. -/
def trackTeardown (s : ExecState) : ExecState :=
  { s with ctrl := { s.ctrl with running := false }, ack_notifies := s.ack_notifies + 1 }

/-! ## track.rs : metadata extraction -/

/-- symphonia StandardTagKey, restricted to the keys the code matches on. -/
inductive StdTagKey where
  | trackTitle
  | artist
  | otherKey
deriving DecidableEq

/-- symphonia Value: the code only distinguishes Value::String. -/
inductive MetaValue where
  | str (s : String)
  | otherValue
deriving DecidableEq

structure Tag where
  std_key : Option StdTagKey
  value : MetaValue
deriving DecidableEq

/-- symphonia StandardVisualKey, restricted to the key the code matches on. -/
inductive VisualUsage where
  | frontCover
  | otherUsage
deriving DecidableEq

/-- symphonia Visual; data is an opaque identity for the image payload. -/
structure Visual where
  usage : Option VisualUsage
  data : Nat
deriving DecidableEq

structure MetadataRevision where
  tags : List Tag
  visuals : List Visual
deriving DecidableEq

/-- TrackDetails of track.rs. -/
structure TrackDetails where
  duration : Option Dur
  title : Option String
  artist : Option String
  cover : Option Visual
deriving DecidableEq

/-- TrackDetails::read_metadata: the first front-cover visual, then a pass
over the tags setting title / artist from TrackTitle / Artist tags (a
non-string value resets the field to none, as in the source). -/
def readMetadata (m : MetadataRevision) : TrackDetails :=
  let cover := m.visuals.find? (fun v =>
    match v.usage with
    | some VisualUsage.frontCover => true
    | _ => false)
  let init : TrackDetails := { duration := none, title := none, artist := none, cover := cover }
  m.tags.foldl (fun acc tag =>
    match tag.std_key with
    | some StdTagKey.trackTitle =>
      { acc with title := match tag.value with | .str v => some v | _ => none }
    | some StdTagKey.artist =>
      { acc with artist := match tag.value with | .str v => some v | _ => none }
    | _ => acc) init

/-- A container track entry as far as TrackDetails::new reads it. -/
structure SymTrack where
  codec_params : CodecParameters
deriving DecidableEq

/-- The pieces of a symphonia ProbeResult that TrackDetails::new consumes:
probe_result.format.metadata().current() (container-level),
probe_result.metadata.get() flattened with .current() (probe/stream-level),
and probe_result.format.default_track(). -/
structure ProbeResult where
  format_metadata : Option MetadataRevision
  probe_metadata : Option MetadataRevision
  default_track : Option SymTrack
deriving DecidableEq

/-- TrackDetails::new from track.rs: read the container-level metadata first,
then backfill only cover and title from the probe-level metadata when the
container left them empty, and finally compute duration from the default
track's time base and frame count. -/
def TrackDetails.new (pr : ProbeResult) : TrackDetails :=
  let base :=
    match pr.format_metadata with
    | some m => readMetadata m
    | none => { duration := none, title := none, artist := none, cover := none }
  let merged :=
    match pr.probe_metadata with
    | some m2 =>
      let new2 := readMetadata m2
      let b1 := if base.cover.isNone then { base with cover := new2.cover } else base
      if b1.title.isNone then { b1 with title := new2.title } else b1
    | none => base
  let dur :=
    match pr.default_track with
    | some tr =>
      match tr.codec_params.time_base, tr.codec_params.n_frames with
      | some tb, some n => some (tb.calcTime n)
      | _, _ => none
    | none => none
  { merged with duration := dur }

/-! ## Concrete instances used by counterexamples and witnesses -/

/-- A millisecond time base (1/1000 s per tick). -/
def tbMs : TimeBase := ⟨1, 1000⟩

/-- A coarse time base (1/10 s per tick). -/
def tbTen : TimeBase := ⟨1, 10⟩

/-- Mono 44.1 kHz codec parameters with a millisecond time base. -/
def cp1 : CodecParameters := ⟨some 44100, some 1, none, 0, some tbMs, none⟩

/-- The partial input slot of an executor state, for inspection. -/
def slotsOf (s : ExecState) : List (List Sample) :=
  match s.resampler with
  | some rs => rs.input_buffer
  | none => []

def p0 : Packet := ⟨0, 0, 1, [[3]]⟩

def c1Track : DecodedTrack := ⟨⟨[p0], 1, some 0, some tbMs⟩, cp1, 0, none⟩

/-- c1Track after servicing a seek to 0: cursor past p0, p0 cached. -/
def c1TrackSeeked : DecodedTrack := ⟨⟨[p0], 1, some 0, some tbMs⟩, cp1, 0, some p0⟩

/-- A resampler holding the pre-seek partial sample 7 in its input slot. -/
def rs7 : ResamplerState := ⟨4, 1, [[7]], [], 0⟩

/-- Executor state with a pending seek request and a partially filled
resampler slot. -/
def c1State : ExecState := ⟨⟨true, true, none, some 0⟩, c1Track, some rs7, [], 0⟩

/-- The state execStep produces from c1State: seek serviced, yet the pre-seek
sample 7 still sits in the input slot next to the post-seek sample 3. -/
def c1After : ExecState :=
  ⟨⟨true, true, some 0, none⟩, ⟨⟨[p0], 1, some 0, some tbMs⟩, cp1, 0, none⟩,
    some ⟨4, 1, [[7, 3]], [], 0⟩, [], 1⟩

def p5 : Packet := ⟨0, 0, 1, [[1, 2]]⟩

def rs5 : ResamplerState := ⟨2, 1, [[]], [], 0⟩

/-- A track whose cached packet fills exactly one resampler chunk. -/
def c5Track : DecodedTrack := ⟨⟨[], 0, some 0, some tbMs⟩, cp1, 0, some p5⟩

def c5TrackAfter : DecodedTrack := ⟨⟨[], 0, some 0, some tbMs⟩, cp1, 0, none⟩

/-- Executor state about to push one full chunk into a failing engine. -/
def c5State : ExecState := ⟨⟨true, true, none, none⟩, c5Track, some rs5, [], 0⟩

/-- c5State after the mutex section (position published). -/
def c5Mid : ExecState := ⟨⟨true, true, some 0, none⟩, c5Track, some rs5, [], 0⟩

/-- The state carried by the fatal outcome of execStep on c5State: the
executor died with running still true. -/
def c5After : ExecState := ⟨⟨true, true, some 0, none⟩, c5TrackAfter, some rs5, [], 0⟩

/-- Resampler with one empty slot of width 4 and an empty queue. -/
def rsZero : ResamplerState := ⟨4, 1, [[]], [], 0⟩

def pA : Packet := ⟨0, 0, 5, [[1]]⟩

def pB : Packet := ⟨0, 5, 5, [[2]]⟩

def cp6 : CodecParameters := ⟨some 44100, some 1, none, 0, some tbTen, none⟩

/-- A two-packet track positioned at the start. -/
def c6Track : DecodedTrack := ⟨⟨[pA, pB], 0, some 0, some tbTen⟩, cp6, 0, none⟩

/-- c6Track after seeking to 0.5 s: demuxer on packet pB, pB pre-fetched. -/
def c6After : DecodedTrack := ⟨⟨[pA, pB], 2, some 0, some tbTen⟩, cp6, 5, some pB⟩

/-- MP3 codec parameters without max_frames_per_packet. -/
def cpMp3 : CodecParameters := ⟨some 48000, some 2, none, CODEC_TYPE_MP3, none, none⟩

def m1w : MetadataRevision := ⟨[⟨some .trackTitle, .str "A"⟩], []⟩

def m2w : MetadataRevision :=
  ⟨[⟨some .trackTitle, .str "B"⟩, ⟨some .artist, .str "X"⟩], [⟨some .frontCover, 1⟩]⟩

/-- Probe result with both metadata levels populated. -/
def c9w : ProbeResult := ⟨some m1w, some m2w, none⟩

/-- Probe result whose artist tag lives only at the probe/stream level. -/
def c9cx : ProbeResult := ⟨some ⟨[], []⟩, some ⟨[⟨some .artist, .str "X"⟩], []⟩, none⟩

/-- Codec parameters with no time base. -/
def cpNoTb : CodecParameters := ⟨some 44100, some 2, none, 0, none, none⟩

def c10Track : DecodedTrack := ⟨⟨[], 0, some 0, none⟩, cpNoTb, 0, none⟩

/-- Executor state whose track cannot report progress. -/
def c10State : ExecState := ⟨⟨true, true, none, none⟩, c10Track, none, [], 0⟩

/-- A stereo buffer of two frames. -/
def b4 : SampleBuf := ⟨[[1, 2], [3, 4]]⟩

/-- A mono buffer of two frames. -/
def b3 : SampleBuf := ⟨[[5, 6]]⟩

/-! ## Theorems -/

/-- C2: Controller::seek returns with the whole state untouched when running
is false; otherwise it records the request in seek_position and then blocks on
controller_ack exactly while playing is true and the request is still
pending — in particular, right after setting the request the wait guard
reduces to playing alone, and at every wake-up the guard holds iff playing
and a pending request hold together. -/
theorem controller_seek_spec (s : AudioPlayerControllerState) (d : Dur) :
    (s.running = false → controllerSeekBody s d = s) ∧
    (s.running = true →
      controllerSeekBody s d = { s with seek_position := some d } ∧
      controllerSeekWaitGuard (controllerSeekBody s d) = s.playing) ∧
    (∀ s1 : AudioPlayerControllerState,
      controllerSeekWaitGuard s1 = true ↔
        s1.playing = true ∧ s1.seek_position.isSome = true) := by
  refine ⟨fun h => ?_, fun h => ?_, fun s1 => ?_⟩
  · simp [controllerSeekBody, h]
  · simp [controllerSeekBody, controllerSeekWaitGuard, h]
  · simp [controllerSeekWaitGuard]

/-- C2 witness: a running, playing controller state records the request and
its subsequent wait guard equals playing. -/
theorem controller_seek_spec_witness :
    controllerSeekBody ⟨true, true, none, none⟩ 5 =
      { (⟨true, true, none, none⟩ : AudioPlayerControllerState) with seek_position := some 5 } ∧
    controllerSeekWaitGuard (controllerSeekBody ⟨true, true, none, none⟩ 5) =
      (⟨true, true, none, none⟩ : AudioPlayerControllerState).playing :=
  (controller_seek_spec ⟨true, true, none, none⟩ 5).2.1 rfl

/-- C7: with a known sample rate and channel count, buffered-resampler
construction succeeds and picks the chunk size K as max_frames_per_packet
when present, else 1152 for the MP3 codec, else 1024. -/
theorem buffered_resampler_chunk (cp : CodecParameters) (out_rate r ch : Nat)
    (hr : cp.sample_rate = some r) (hch : cp.channels = some ch) :
    (∀ k, cp.max_frames_per_packet = some k →
      SymphoniaResamplerBuffered.new cp out_rate =
        .ok ⟨k, ch, List.replicate ch [], [], 0⟩) ∧
    (cp.max_frames_per_packet = none → cp.codec = CODEC_TYPE_MP3 →
      SymphoniaResamplerBuffered.new cp out_rate =
        .ok ⟨1152, ch, List.replicate ch [], [], 0⟩) ∧
    (cp.max_frames_per_packet = none → cp.codec ≠ CODEC_TYPE_MP3 →
      SymphoniaResamplerBuffered.new cp out_rate =
        .ok ⟨1024, ch, List.replicate ch [], [], 0⟩) := by
  refine ⟨fun k hk => ?_, fun hk hc => ?_, fun hk hc => ?_⟩ <;>
    simp [SymphoniaResamplerBuffered.new, hr, hch, hk, DEFAULT_CHUNK_SIZE]
  · simp [hc]
  · simp [hc]

/-- C7 witness: MP3 parameters lacking max_frames_per_packet get chunk size
1152. -/
theorem buffered_resampler_chunk_witness :
    SymphoniaResamplerBuffered.new cpMp3 44100 =
      .ok ⟨1152, 2, List.replicate 2 [], [], 0⟩ :=
  (buffered_resampler_chunk cpMp3 44100 48000 2 rfl rfl).2.1 rfl rfl

/-- C8: pushing a zero-frame packet leaves the ring state (input slot and
read position) untouched, but the next resample_next call hits the
`pushed == 0` panic inside fill_f64_buffer_21: the code panics on the empty
packet instead of skipping it, contradicting the claim and the spec boundary
behavior. -/
theorem zero_frame_packet_panics :
    (rsZero.resample ⟨[[]]⟩).input_buffer = rsZero.input_buffer ∧
    (rsZero.resample ⟨[[]]⟩).buffer_position = rsZero.buffer_position ∧
    resampleNext (.ok []) 2 (rsZero.resample ⟨[[]]⟩) = .panicked := by
  decide

/-- C10: a track whose codec parameters lack a time base makes progress()
return ProgressUnavailable, and the executor inner loop, which publishes the
position every iteration with track.progress()?, propagates that error out of
the worker closure: the step is fatal for the executor instead of ending the
track. -/
theorem missing_time_base_fatal (eng : EngineResult) (fuel : Nat) (s : ExecState)
    (hseek : s.ctrl.seek_position = none)
    (htb : s.track.codec_params.time_base = none) :
    s.track.progressTime = .error .progressUnavailable ∧
    execStep eng fuel s = .fatal (.dec .progressUnavailable) s := by
  have hp : s.track.progressTime = .error .progressUnavailable := by
    simp [DecodedTrack.progressTime, htb]
  refine ⟨hp, ?_⟩
  simp [execStep, serviceControls, hseek, hp]

/-- C10 witness: a concrete no-time-base track kills the executor on its
first inner-loop iteration. -/
theorem missing_time_base_fatal_witness :
    c10State.track.progressTime = .error .progressUnavailable ∧
    execStep (.ok []) 1 c10State = .fatal (.dec .progressUnavailable) c10State :=
  missing_time_base_fatal (.ok []) 1 c10State (by decide) (by decide)

/-- C1 counterexample: a concrete step with a pending seek that succeeds —
the request is cleared and controller_ack signalled, but the pre-seek partial
sample 7 is still sitting in the resampler input slot after the iteration
(next to the post-seek sample 3): the partial slots are not discarded, so the
claimed resampler reset does not happen. -/
theorem executor_seek_no_reset_counterexample :
    execStep (.ok []) 3 c1State = .continueLoop c1After ∧
    slotsOf c1State = [[7]] ∧
    c1After.ctrl.seek_position = none ∧
    c1After.ack_notifies = 1 ∧
    slotsOf c1After = [[7, 3]] := by
  decide

/-- C1 amended: on a pending seek that succeeds, the executor clears the
request, signals controller_ack and updates the track — all inside the mutex
section, before decoding the next packet — but it does not reset the buffered
resampler: the resampler field (including any partially filled input slots)
passes through this phase unchanged. -/
theorem executor_seek_service (s : ExecState) (d : Dur) (t1 : DecodedTrack) (p : Dur)
    (hseek : s.ctrl.seek_position = some d)
    (hok : s.track.seek d = .ok t1)
    (hprog : t1.progressTime = .ok p)
    (hplay : s.ctrl.playing = true) :
    serviceControls s = .proceed
      { s with track := t1,
               ctrl := { s.ctrl with seek_position := none, position := some p },
               ack_notifies := s.ack_notifies + 1 } ∧
    ({ s with track := t1,
              ctrl := { s.ctrl with seek_position := none, position := some p },
              ack_notifies := s.ack_notifies + 1 } : ExecState).resampler = s.resampler := by
  refine ⟨?_, rfl⟩
  simp [serviceControls, hseek, hok, hprog, hplay]

/-- C1 witness: the seek-service phase on the concrete pending-seek state. -/
theorem executor_seek_service_witness :
    serviceControls c1State = .proceed
      { c1State with track := c1TrackSeeked,
                     ctrl := { c1State.ctrl with seek_position := none, position := some 0 },
                     ack_notifies := c1State.ack_notifies + 1 } ∧
    ({ c1State with track := c1TrackSeeked,
                    ctrl := { c1State.ctrl with seek_position := none, position := some 0 },
                    ack_notifies := c1State.ack_notifies + 1 } : ExecState).resampler
      = c1State.resampler :=
  executor_seek_service c1State 0 c1TrackSeeked 0 (by decide) (by decide) (by decide) (by decide)

/-- C5 counterexample: a concrete state where the engine fails during the
per-packet resample step — the step outcome is fatal for the whole executor
(the error leaves the run closure), and running is still true in the final
state: the executor neither marks running false nor proceeds to the next
queued track. -/
theorem resample_error_counterexample :
    execStep (.error .rubatoResample) 3 c5State = .fatal (.res .rubatoResample) c5After ∧
    c5After.ctrl.running = true := by
  decide

/-- C5 amended: when the engine reports an error during the per-packet
resample step, the error propagates out of the worker closure unchanged: the
iteration ends fatal for the whole executor (run().unwrap() then panics the
thread), the per-track teardown that would clear running never executes, and
remaining queued tracks are never played. -/
theorem resample_error_fatal (fuel : Nat) (s s1 : ExecState) (e : ResamplerError)
    (buf : SampleBuf) (t1 : DecodedTrack) (rs : ResamplerState)
    (outs : List (List (List Sample)))
    (hsvc : serviceControls s = .proceed s1)
    (hnext : s1.track.next = .ok (buf, t1))
    (hres : s1.resampler = some rs)
    (hpop : popLoop (.error e) fuel (rs.resample buf) = .engineError e outs) :
    execStep (.error e) fuel s =
      .fatal (.res e) { s1 with track := t1, written := s1.written ++ outs } ∧
    ({ s1 with track := t1, written := s1.written ++ outs } : ExecState).ctrl.running
      = s1.ctrl.running := by
  refine ⟨?_, rfl⟩
  simp [execStep, hsvc, hnext, hres, hpop]

/-- C5 witness: the amended propagation behavior at the concrete failing
state. -/
theorem resample_error_fatal_witness :
    execStep (.error .rubatoResample) 3 c5State =
      .fatal (.res .rubatoResample)
        { c5Mid with track := c5TrackAfter, written := c5Mid.written ++ [] } ∧
    ({ c5Mid with track := c5TrackAfter, written := c5Mid.written ++ [] } : ExecState).ctrl.running
      = c5Mid.ctrl.running :=
  resample_error_fatal 3 c5State c5Mid .rubatoResample ⟨[[1, 2]]⟩ c5TrackAfter rs5 []
    (by decide) (by decide) (by decide) (by decide)

/-- C6: a successful seek(target) repositions the demuxer with an accurate
time seek, pre-fetches the first default-track packet from there into the
next_packet cache, makes progress reflect that packet's timestamp (so
progress() immediately reports the seek-adjusted position), and the next
next() call returns exactly the decoded cached packet, clearing the cache. -/
theorem track_seek_spec (t : DecodedTrack) (target : Dur) (t1 : DecodedTrack)
    (p : Packet) (n : Nat) (tb : TimeBase)
    (hok : t.seek target = .ok t1)
    (hscan : scanPackets t.reader.default_track_id
      ((t.reader.seekTo SeekMode.accurate target).packets.drop
        (t.reader.seekTo SeekMode.accurate target).pos) = .ok (p, n))
    (htb : t.codec_params.time_base = some tb) :
    t1.next_packet = some p ∧
    t1.progress = p.ts ∧
    t1.reader.packets = t.reader.packets ∧
    t1.reader.pos = (t.reader.seekTo SeekMode.accurate target).pos + n ∧
    t1.progressTime = .ok (tb.calcTime p.ts) ∧
    t1.next = .ok (decodePacket p, { t1 with next_packet := none, progress := p.ts }) := by
  simp only [DecodedTrack.seek, DecodedTrack.nextPacketFn] at hok
  rw [show ({ t with reader := t.reader.seekTo SeekMode.accurate target } :
      DecodedTrack).reader.default_track_id = t.reader.default_track_id from rfl] at hok
  rw [show ({ t with reader := t.reader.seekTo SeekMode.accurate target } :
      DecodedTrack).reader.packets = (t.reader.seekTo SeekMode.accurate target).packets
      from rfl] at hok
  rw [show ({ t with reader := t.reader.seekTo SeekMode.accurate target } :
      DecodedTrack).reader.pos = (t.reader.seekTo SeekMode.accurate target).pos from rfl] at hok
  rw [hscan] at hok
  cases hok
  refine ⟨rfl, rfl, ?_, rfl, ?_, rfl⟩
  · show (t.reader.seekTo SeekMode.accurate target).packets = t.reader.packets
    rfl
  · simp [DecodedTrack.progressTime, htb]

/-- C6 witness: seeking the two-packet track to 0.5 s caches packet pB,
reports its timestamp and hands pB to the next next() call. -/
theorem track_seek_spec_witness :
    c6After.next_packet = some pB ∧
    c6After.progress = pB.ts ∧
    c6After.reader.packets = c6Track.reader.packets ∧
    c6After.reader.pos = (c6Track.reader.seekTo SeekMode.accurate 500000000).pos + 1 ∧
    c6After.progressTime = .ok (tbTen.calcTime pB.ts) ∧
    c6After.next = .ok (decodePacket pB, { c6After with next_packet := none, progress := pB.ts }) :=
  track_seek_spec c6Track 500000000 c6After pB 1 tbTen (by decide) (by decide) (by decide)

/-- C9 counterexample: an Artist tag present only at the probe/stream level
is readable there (the metadata pass extracts it), yet TrackDetails::new
drops it — the artist field of the result is none, so a tag present only at
the stream level is not always used to fill the corresponding field. -/
theorem track_details_artist_counterexample :
    (readMetadata ⟨[⟨some .artist, .str "X"⟩], []⟩).artist = some "X" ∧
    (TrackDetails.new c9cx).artist = none := by
  decide

/-- C9 amended: with both metadata levels present, container-level title and
cover win and are backfilled from the probe/stream level only when absent,
but artist comes exclusively from the container level (never backfilled), and
duration is computed from the default track's time base and frame count
rather than from tags. -/
theorem track_details_merge (pr : ProbeResult) (m1 m2 : MetadataRevision)
    (h1 : pr.format_metadata = some m1) (h2 : pr.probe_metadata = some m2) :
    (TrackDetails.new pr).title =
      (match (readMetadata m1).title with
       | some v => some v
       | none => (readMetadata m2).title) ∧
    (TrackDetails.new pr).cover =
      (match (readMetadata m1).cover with
       | some v => some v
       | none => (readMetadata m2).cover) ∧
    (TrackDetails.new pr).artist = (readMetadata m1).artist ∧
    (TrackDetails.new pr).duration =
      (match pr.default_track with
       | some tr =>
         match tr.codec_params.time_base, tr.codec_params.n_frames with
         | some tb, some nf => some (tb.calcTime nf)
         | _, _ => none
       | none => none) := by
  simp only [TrackDetails.new, h1, h2]
  cases hcov : (readMetadata m1).cover <;> cases htit : (readMetadata m1).title <;>
    simp [hcov, htit]

/-- C9 witness: the merge behavior at a probe result populated on both
levels — container title "A" wins, the cover is backfilled, the probe-level
artist is ignored. -/
theorem track_details_merge_witness :
    (TrackDetails.new c9w).title = some "A" ∧
    (TrackDetails.new c9w).cover = some ⟨some .frontCover, 1⟩ ∧
    (TrackDetails.new c9w).artist = none := by
  have h := track_details_merge c9w m1w m2w rfl rfl
  exact ⟨h.1.trans (by decide), h.2.1.trans (by decide), h.2.2.1.trans (by decide)⟩

/-- Vec::resize always yields exactly the requested length. -/
theorem vecResize_length (l : List Sample) (n : Nat) (v : Sample) :
    (vecResize l n v).length = n := by
  unfold vecResize
  split
  · simp only [List.length_take]
    omega
  · simp only [List.length_append, List.length_replicate]
    omega

/-- Element j of Vec::resize, for j in range: the old element when it
existed, the fill value otherwise. -/
theorem vecResize_getD (l : List Sample) (n : Nat) (v : Sample) (j : Nat) (hj : j < n) :
    (vecResize l n v).getD j v = if j < l.length then l.getD j v else v := by
  unfold vecResize
  by_cases h : n ≤ l.length
  · have hjl : j < l.length := Nat.lt_of_lt_of_le hj h
    rw [if_pos h, if_pos hjl,
      List.getD_eq_getElem _ _ (by simp only [List.length_take]; omega),
      List.getD_eq_getElem _ _ hjl]
    exact List.getElem_take _
  · rw [if_neg h]
    by_cases hjl : j < l.length
    · rw [List.getD_append _ _ _ _ hjl, if_pos hjl]
    · rw [List.getD_append_right _ _ _ _ (Nat.le_of_not_lt hjl),
        List.getD_eq_getElem _ _ (by simp only [List.length_replicate]; omega),
        List.getElem_replicate, if_neg hjl]

/-- C3 counterexample: resizing the empty buffer to shape (2, 3) yields a
buffer with 0 channels, not the 2 channels the claim requires — resize never
grows the channel dimension. -/
theorem resize_counterexample :
    ((SampleBuf.mk []).resize 2 3).channels = 0 ∧
    ((SampleBuf.mk []).resize 2 3).channels ≠ 2 := by
  decide

/-- C3 amended: resize(C, F) truncates the channel count to min(C, old) —
never growing it — and gives each surviving channel exactly F frames,
preserving the old samples where they existed and filling the new positions
with 0.0. -/
theorem resize_spec (b : SampleBuf) (C F : Nat) :
    (b.resize C F).channels = min C b.channels ∧
    (∀ c, c < (b.resize C F).channels → ((b.resize C F).buffer.getD c []).length = F) ∧
    (∀ c j, c < (b.resize C F).channels → j < F →
      ((b.resize C F).buffer.getD c []).getD j 0 =
        if j < (b.buffer.getD c []).length then (b.buffer.getD c []).getD j 0 else 0) := by
  have hlen : (b.resize C F).buffer.length = min C b.buffer.length := by
    simp [SampleBuf.resize, List.length_take]
  refine ⟨by simpa [SampleBuf.channels] using hlen, fun c hc => ?_, fun c j hc hj => ?_⟩
  · have hc2 : c < ((b.buffer.take C).map (fun l => vecResize l F 0)).length := by
      simpa [SampleBuf.resize, SampleBuf.channels] using hc
    rw [show (b.resize C F).buffer = (b.buffer.take C).map (fun l => vecResize l F 0) from rfl,
      List.getD_eq_getElem _ _ hc2, List.getElem_map, vecResize_length]
  · have hc2 : c < ((b.buffer.take C).map (fun l => vecResize l F 0)).length := by
      simpa [SampleBuf.resize, SampleBuf.channels] using hc
    have hcb : c < b.buffer.length := by
      simp only [SampleBuf.channels] at hc
      rw [hlen] at hc
      omega
    rw [show (b.resize C F).buffer = (b.buffer.take C).map (fun l => vecResize l F 0) from rfl,
      List.getD_eq_getElem _ _ hc2, List.getElem_map, List.getElem_take,
      vecResize_getD _ _ _ _ hj, List.getD_eq_getElem _ _ hcb]

/-- C3 witness: resizing the mono two-frame buffer to shape (1, 3). -/
theorem resize_spec_witness :
    (b3.resize 1 3).channels = min 1 b3.channels ∧
    ((b3.resize 1 3).buffer.getD 0 []).length = 3 ∧
    ((b3.resize 1 3).buffer.getD 0 []).getD 2 0 =
      if 2 < (b3.buffer.getD 0 []).length then (b3.buffer.getD 0 []).getD 2 0 else 0 :=
  ⟨(resize_spec b3 1 3).1, (resize_spec b3 1 3).2.1 0 (by decide),
    (resize_spec b3 1 3).2.2 0 2 (by decide) (by decide)⟩

/-- Length of a flat map whose blocks all have width C. -/
theorem flatMap_length_const {α β : Type} (xs : List α) (g : α → List β) (C : Nat)
    (hg : ∀ x ∈ xs, (g x).length = C) :
    (xs.flatMap g).length = xs.length * C := by
  induction xs with
  | nil => simp
  | cons x xs ih =>
    simp only [List.flatMap_cons, List.length_append, List.length_cons]
    rw [hg x (List.mem_cons_self x xs), ih (fun y hy => hg y (List.mem_cons_of_mem x hy))]
    ring

/-- Indexing a flat map whose blocks all have width C: position k falls in
block k / C at offset k % C. -/
theorem flatMap_getD_const {α β : Type} (xs : List α) (g : α → List β) (C : Nat)
    (d : β) (x0 : α)
    (hg : ∀ x ∈ xs, (g x).length = C) :
    ∀ k, k < xs.length * C →
      (xs.flatMap g).getD k d = (g (xs.getD (k / C) x0)).getD (k % C) d := by
  induction xs with
  | nil => intro k hk; simp at hk
  | cons x xs ih =>
    intro k hk
    have hC : 0 < C := by
      rcases Nat.eq_zero_or_pos C with h0 | h
      · rw [h0, Nat.mul_zero] at hk; omega
      · exact h
    by_cases hkC : k < C
    · rw [List.flatMap_cons,
        List.getD_append _ _ _ _ (by rw [hg x (List.mem_cons_self x xs)]; exact hkC),
        Nat.div_eq_of_lt hkC, Nat.mod_eq_of_lt hkC, List.getD_cons_zero]
    · push_neg at hkC
      have hxlen : C ≤ (g x).length := by rw [hg x (List.mem_cons_self x xs)]
      have hsplit : (xs.length + 1) * C = xs.length * C + C := by ring
      have hk2 : k - C < xs.length * C := by
        simp only [List.length_cons] at hk
        omega
      have hkc : k - C + C = k := Nat.sub_add_cancel hkC
      have h1 : k / C = (k - C) / C + 1 := by
        calc k / C = (k - C + C) / C := by rw [hkc]
          _ = (k - C) / C + 1 := Nat.add_div_right _ hC
      have h2 : k % C = (k - C) % C := by
        calc k % C = (k - C + C) % C := by rw [hkc]
          _ = (k - C) % C := Nat.add_mod_right _ _
      rw [List.flatMap_cons,
        List.getD_append_right _ _ _ _ (by rw [hg x (List.mem_cons_self x xs)]; exact hkC),
        hg x (List.mem_cons_self x xs),
        ih (fun y hy => hg y (List.mem_cons_of_mem x hy)) (k - C) hk2,
        h1, h2, List.getD_cons_succ]

/-- C4: under the planar invariant, b.interleaved yields channels * frames
samples and its k-th element is channel (k mod C) at frame (k div C):
interleaving is frame-major, channel-minor. -/
theorem interleaved_spec (b : SampleBuf)
    (hpl : ∀ c ∈ b.buffer, c.length = b.frames) :
    b.interleaved.length = b.channels * b.frames ∧
    ∀ k, k < b.channels * b.frames →
      b.interleaved.getD k 0 = (b.buffer.getD (k % b.channels) []).getD (k / b.channels) 0 := by
  have hg : ∀ f ∈ List.range b.frames,
      ((fun f => b.buffer.map (fun c => c.getD f 0)) f).length = b.channels := by
    intro f _
    simp [SampleBuf.channels]
  constructor
  · rw [show b.interleaved =
        (List.range b.frames).flatMap (fun f => b.buffer.map (fun c => c.getD f 0)) from rfl,
      flatMap_length_const _ _ _ hg, List.length_range, Nat.mul_comm]
  · intro k hk
    have hC : 0 < b.channels := by
      rcases Nat.eq_zero_or_pos b.channels with h0 | h
      · rw [h0, Nat.zero_mul] at hk; omega
      · exact h
    have hk2 : k < (List.range b.frames).length * b.channels := by
      rw [List.length_range, Nat.mul_comm]
      exact hk
    have hdivF : k / b.channels < b.frames :=
      (Nat.div_lt_iff_lt_mul hC).mpr (by rw [Nat.mul_comm] at hk; exact hk)
    have hmod : k % b.channels < b.buffer.length := Nat.mod_lt _ hC
    have hrange : (List.range b.frames).getD (k / b.channels) 0 = k / b.channels := by
      rw [List.getD_eq_getElem _ _ (by simpa using hdivF), List.getElem_range]
    rw [show b.interleaved =
        (List.range b.frames).flatMap (fun f => b.buffer.map (fun c => c.getD f 0)) from rfl,
      flatMap_getD_const _ _ _ _ 0 hg k hk2, hrange,
      List.getD_eq_getElem _ _ (by simpa using hmod), List.getElem_map,
      List.getD_eq_getElem b.buffer [] hmod]

/-- C4 witness: the stereo two-frame buffer interleaves to four samples with
element 3 being channel 1 at frame 1. -/
theorem interleaved_spec_witness :
    b4.interleaved.length = b4.channels * b4.frames ∧
    b4.interleaved.getD 3 0 = (b4.buffer.getD (3 % b4.channels) []).getD (3 / b4.channels) 0 :=
  ⟨(interleaved_spec b4 (by decide)).1, (interleaved_spec b4 (by decide)).2 3 (by decide)⟩

end AudioPlayer
